import Mathlib

/-!
# Verification of the bitcoin-testnet-box bootstrap script and front-end

This file gives a shallow embedding of the repository's two source files:

* the bash bootstrap script (`set -e`; stop-if-running, wait for process
  exit, clean, start, two sequential RPC-readiness polling loops, wallet
  creation, mining, a demo transfer, balance queries, and a final stop);
* the React front-end `App.jsx` (the bounded `log` list and the `send`
  handler's empty-address guard).

The script's interaction with the outside world (process liveness as seen
by `pgrep`, RPC probe outcomes, success or failure of each external
command) is abstracted into an `Env`.  The script itself is deterministic
given an `Env`; its unbounded polling loops are modelled with a fuel
parameter: a run either finishes (`Status.done exitCode`) or is still
blocked inside one of the three polling loops when the fuel runs out
(`Status.waiting`).  The provisioning prelude of the script (downloading
and installing the bitcoind binaries, lines 1-34) has no runtime
invariants and is omitted; the embedding starts at the
"Cleaning up previous run" line.

The Makefile invoked by the script (`make stop`, `make clean`,
`make start`, `make generate`, `make getinfo`) is not part of the given
sources.  Modelled from the spec: `make stop` requests graceful shutdown
of both node processes; `make clean` removes both data directories;
`make start` launches both node processes; `make generate BLOCKS=n` mines
`n` blocks on Node 1 addressed to Node 1's deterministic mining identity;
`make getinfo` queries Node 1's info snapshot.
-/

namespace TestnetBox

/-- The two node identities of the testnet box (data directories `1` and `2`). -/
inductive NodeId
  | one
  | two
  deriving DecidableEq

/-- The RPC calls the script issues against a node after start-up
(`bitcoin-cli -datadir=n ...`, directly or through a Makefile target). -/
inductive RpcCall
  | createWallet
  | generateBlocks (n : Nat)
  | getInfo
  | getNewAddress
  | sendToAddress
  | getBalance
  deriving DecidableEq

/-- Externally observable events of one bootstrap run, in program order.

`stopCmd ok` is the initial `make stop >/dev/null 2>&1 || true` (its
outcome `ok` is recorded but absorbed); `pgrepPoll running` is one
iteration of the `while pgrep bitcoind` wait loop; `probe n ok` is one
iteration of an `until bitcoin-cli -datadir=n getnetworkinfo` readiness
loop; `rpc n c` is a post-readiness RPC call against node `n`;
`stopFinal` is the final `make stop` at the end of the script. -/
inductive Event
  | stopCmd (ok : Bool)
  | pgrepPoll (running : Bool)
  | cleanCmd
  | startCmd
  | probe (n : NodeId) (ok : Bool)
  | rpc (n : NodeId) (c : RpcCall)
  | stopFinal
  deriving DecidableEq

/-- Loop locations in which a run can still be blocked when fuel runs out:
the process-exit wait after `make stop`, and the two readiness loops. -/
inductive WaitPoint
  | stopWait
  | ready1
  | ready2
  deriving DecidableEq

/-- Result of running the script with a given amount of fuel: either the
script finished with an exit code (`set -e` makes every unguarded command
failure exit non-zero), or it is still blocked inside a polling loop. -/
inductive Status
  | done (exitCode : Nat)
  | waiting (w : WaitPoint)
  deriving DecidableEq

/-- The outside world as the script observes it.  `runningAt i` is what
`pgrep bitcoind` reports on its `i`-th poll; `readyAt n i` is whether the
`i`-th `getnetworkinfo` probe of node `n` succeeds; the remaining fields
say whether each external command exits successfully.  A
wallet-already-exists error from `createwallet` is an ordinary non-zero
exit, so it is covered by `walletOk n = false`. -/
structure Env where
  stopOk : Bool
  runningAt : Nat → Bool
  cleanOk : Bool
  startOk : Bool
  readyAt : NodeId → Nat → Bool
  walletOk : NodeId → Bool
  gen101Ok : Bool
  infoOk : Bool
  addrOk : Bool
  sendOk : Bool
  gen1Ok : Bool
  balOk : NodeId → Bool
  finalStopOk : Bool

/-- First index `k` with `s ≤ k < s + fuel` such that `p k = true`
(fuel-bounded search, used to model the polling loops). -/
def firstIdxFrom (p : Nat → Bool) : Nat → Nat → Option Nat
  | _, 0 => none
  | s, fuel + 1 => if p s then some s else firstIdxFrom p (s + 1) fuel

/-- First index `k < fuel` with `p k = true`, if any. -/
def firstIdx (p : Nat → Bool) (fuel : Nat) : Option Nat :=
  firstIdxFrom p 0 fuel

/-- Trace of the first `m` iterations of the `pgrep` wait loop. -/
def pollsUpTo (f : Nat → Bool) (m : Nat) : List Event :=
  (List.range m).map fun i => Event.pgrepPoll (f i)

/-- Trace of the first `m` iterations of node `n`'s readiness loop. -/
def probesUpTo (n : NodeId) (f : Nat → Bool) (m : Nat) : List Event :=
  (List.range m).map fun i => Event.probe n (f i)

/-- Run a straight-line sequence of `set -e` commands: each step is a pair
of its success flag and its event; the first failing command aborts the
script with exit code 1, a fully successful run exits 0. -/
def runSteps : List (Bool × Event) → List Event → List Event × Status
  | [], t => (t, Status.done 0)
  | (true, e) :: rest, t => runSteps rest (t ++ [e])
  | (false, e) :: _rest, t => (t ++ [e], Status.done 1)

/-- The straight-line tail of the script after both readiness loops:
`createwallet wallet1`, `createwallet wallet2`,
`make generate BLOCKS=101`, `make getinfo`, `getnewaddress` on node 2,
`sendtoaddress` from node 1, `make generate BLOCKS=1`, the two
`getbalance` queries, and the final `make stop`. -/
def tailSteps (env : Env) : List (Bool × Event) :=
  [ (env.walletOk NodeId.one, Event.rpc NodeId.one RpcCall.createWallet),
    (env.walletOk NodeId.two, Event.rpc NodeId.two RpcCall.createWallet),
    (env.gen101Ok, Event.rpc NodeId.one (RpcCall.generateBlocks 101)),
    (env.infoOk, Event.rpc NodeId.one RpcCall.getInfo),
    (env.addrOk, Event.rpc NodeId.two RpcCall.getNewAddress),
    (env.sendOk, Event.rpc NodeId.one RpcCall.sendToAddress),
    (env.gen1Ok, Event.rpc NodeId.one (RpcCall.generateBlocks 1)),
    (env.balOk NodeId.one, Event.rpc NodeId.one RpcCall.getBalance),
    (env.balOk NodeId.two, Event.rpc NodeId.two RpcCall.getBalance),
    (env.finalStopOk, Event.stopFinal) ]

/-- The events of `tailSteps`, independent of the environment's outcomes. -/
def demoEvents : List Event :=
  [ Event.rpc NodeId.one RpcCall.createWallet,
    Event.rpc NodeId.two RpcCall.createWallet,
    Event.rpc NodeId.one (RpcCall.generateBlocks 101),
    Event.rpc NodeId.one RpcCall.getInfo,
    Event.rpc NodeId.two RpcCall.getNewAddress,
    Event.rpc NodeId.one RpcCall.sendToAddress,
    Event.rpc NodeId.one (RpcCall.generateBlocks 1),
    Event.rpc NodeId.one RpcCall.getBalance,
    Event.rpc NodeId.two RpcCall.getBalance,
    Event.stopFinal ]

/-- Readiness phase: the script's two sequential `until getnetworkinfo`
loops — node 1's loop runs to success first, only then does node 2's loop
begin — followed by the straight-line tail.  Neither loop has a deadline:
exhausting the fuel leaves the run `waiting`. -/
def readyPhase (env : Env) (fuel : Nat) (t : List Event) : List Event × Status :=
  match firstIdx (env.readyAt NodeId.one) fuel with
  | none =>
      (t ++ probesUpTo NodeId.one (env.readyAt NodeId.one) fuel, Status.waiting WaitPoint.ready1)
  | some k1 =>
      match firstIdx (env.readyAt NodeId.two) fuel with
      | none =>
          (t ++ probesUpTo NodeId.one (env.readyAt NodeId.one) (k1 + 1) ++
              probesUpTo NodeId.two (env.readyAt NodeId.two) fuel,
            Status.waiting WaitPoint.ready2)
      | some k2 =>
          runSteps (tailSteps env)
            (t ++ probesUpTo NodeId.one (env.readyAt NodeId.one) (k1 + 1) ++
              probesUpTo NodeId.two (env.readyAt NodeId.two) (k2 + 1))

/-- Start phase: `make start` under `set -e`, then the readiness phase. -/
def startPhase (env : Env) (fuel : Nat) (t : List Event) : List Event × Status :=
  match env.startOk with
  | true => readyPhase env fuel (t ++ [Event.startCmd])
  | false => (t ++ [Event.startCmd], Status.done 1)

/-- Clean phase: `make clean` under `set -e`, then the start phase. -/
def cleanPhase (env : Env) (fuel : Nat) (t : List Event) : List Event × Status :=
  match env.cleanOk with
  | true => startPhase env fuel (t ++ [Event.cleanCmd])
  | false => (t ++ [Event.cleanCmd], Status.done 1)

/-- Everything after the initial absorbed `make stop`: the
`while pgrep bitcoind` wait loop (no deadline; exhausting the fuel leaves
the run `waiting`), then clean, start, readiness and the tail. -/
def runRest (env : Env) (fuel : Nat) : List Event × Status :=
  match firstIdx (fun i => !env.runningAt i) fuel with
  | none => (pollsUpTo env.runningAt fuel, Status.waiting WaitPoint.stopWait)
  | some k => cleanPhase env fuel (pollsUpTo env.runningAt (k + 1))

/-- The whole bootstrap run from the "Cleaning up previous run" line: the
absorbed `make stop || true` (its outcome is recorded but never aborts the
script), followed by `runRest`. -/
def runBootstrap (env : Env) (fuel : Nat) : List Event × Status :=
  (Event.stopCmd env.stopOk :: (runRest env fuel).1, (runRest env fuel).2)

/-- Whether the run has actually finished (as opposed to still being
blocked inside one of the polling loops). -/
def isDone : Status → Bool
  | Status.done _ => true
  | Status.waiting _ => false

/-- The bootstrap terminates in environment `env` if some finite amount of
fuel suffices for it to finish (with any exit code). -/
def bootstrapTerminates (env : Env) : Prop :=
  ∃ fuel, isDone (runBootstrap env fuel).2 = true

/-- Process-liveness projection of a trace.  Modelled from the spec:
`make start` launches the node processes, `make stop` (the final,
unguarded one) requests graceful shutdown of both, and each `pgrep` poll
reports the actual liveness at that moment.  `b` is the liveness before
the run. -/
def stepRunning (s : Bool) : Event → Bool
  | Event.startCmd => true
  | Event.stopFinal => false
  | Event.pgrepPoll b => b
  | _ => s

/-- Liveness of the node processes after executing a trace, starting from
prior liveness `b`. -/
def runningAfter (b : Bool) (tr : List Event) : Bool :=
  tr.foldl stepRunning b

/-- An environment in which everything works: the old processes exit on
the second `pgrep` poll, each node answers its second probe, and every
external command succeeds. -/
def allOkEnv : Env :=
  { stopOk := true
    runningAt := fun i => i == 0
    cleanOk := true
    startOk := true
    readyAt := fun _ i => i != 0
    walletOk := fun _ => true
    gen101Ok := true
    infoOk := true
    addrOk := true
    sendOk := true
    gen1Ok := true
    balOk := fun _ => true
    finalStopOk := true }

/-- An environment in which the old bitcoind processes never exit, so the
`while pgrep bitcoind` wait loop never ends. -/
def hangEnv : Env :=
  { allOkEnv with runningAt := fun _ => true }

/-- An environment in which node 1 never becomes RPC-ready. -/
def neverReadyEnv : Env :=
  { allOkEnv with readyAt := fun _ _ => false }

/-- An environment in which node 1 never becomes RPC-ready while node 2 is
ready from its very first probe. -/
def node1NeverReadyEnv : Env :=
  { allOkEnv with readyAt := fun n _ => n == NodeId.two }

/-- An environment in which `createwallet wallet1` fails (for example
because the wallet already exists: `bitcoin-cli` exits non-zero). -/
def walletExistsEnv : Env :=
  { allOkEnv with walletOk := fun _ => false }

/-! ## The front-end (`src/frontend/src/App.jsx`)

The component state is the five `useState` hooks; DOM inputs hold strings.
`log` prepends a message and keeps the first 50 entries
(`[msg, ...prev].slice(0, 50)`).  The `send` handler returns immediately
after logging an error when `targetAddress` is falsy (for a string state,
exactly when it is the empty string); otherwise it logs, issues the
`/send` request and, when the response parses, calls `fetchInfo`, which
issues `/info`. -/

/-- One `log(msg)` call of the front-end: prepend and keep 50. -/
def logStep (msg : String) (logs : List String) : List String :=
  (msg :: logs).take 50

/-- A sequence of `log` calls, earliest first, applied to an initial
`logs` state. -/
def foldLogs (init : List String) (msgs : List String) : List String :=
  msgs.foldl (fun l m => logStep m l) init

/-- The front-end component state relevant to `send`: the `info`,
`logs`, `amount`, `genBlocks` and `targetAddress` hooks. -/
structure AppState where
  info : Option String
  logs : List String
  amount : String
  genBlocks : String
  targetAddress : String

/-- Outcome of the `/send` fetch as the handler observes it: the network
request threw, or a parsed JSON body with an optional `txid` field (`raw`
standing for the whole body). -/
inductive FetchResult
  | netError (e : String)
  | resp (txid : Option String) (raw : String)

/-- The error text the `send` handler logs for a missing target address. -/
def noAddressMsg : String :=
  "Error: No target address (generate one for Node 2 first)"

/-- The front-end `send` handler.  Returns the new component state and
the list of endpoints it requested, in order.  `fr` is the outcome of the
`/send` fetch and `infoResp` the body of the follow-up `/info` fetch (the
`fetchInfo` catch swallows its failure, modelled by `none`). -/
def sendOp (fr : FetchResult) (infoResp : Option String) (s : AppState) :
    AppState × List String :=
  if s.targetAddress = "" then
    ({ s with logs := logStep noAddressMsg s.logs }, [])
  else
    let s1 := { s with
      logs := logStep ("Sending " ++ s.amount ++ " BTC to " ++ s.targetAddress ++ "...") s.logs }
    match fr with
    | FetchResult.netError e =>
        ({ s1 with logs := logStep ("Error: " ++ e) s1.logs }, ["/send"])
    | FetchResult.resp txid raw =>
        let s2 :=
          match txid with
          | some t => { s1 with logs := logStep ("Sent! TXID: " ++ t) s1.logs }
          | none => { s1 with logs := logStep ("Error: " ++ raw) s1.logs }
        let s3 :=
          match infoResp with
          | some d => { s2 with info := some d }
          | none => s2
        (s3, ["/send", "/info"])

/-- A concrete front-end state with an empty target address (the initial
state of the component: no info yet, empty log, default inputs). -/
def emptyAddrState : AppState :=
  { info := none
    logs := []
    amount := "10"
    genBlocks := "1"
    targetAddress := "" }

/-! ## Basic lemmas about the fuel-bounded search and the traces -/

theorem firstIdxFrom_some {p : Nat → Bool} :
    ∀ fuel s k, firstIdxFrom p s fuel = some k → p k = true := by
  intro fuel
  induction fuel with
  | zero => intro s k h; simp [firstIdxFrom] at h
  | succ n ih =>
    intro s k h
    by_cases hp : p s = true
    · simp [firstIdxFrom, hp] at h
      exact h ▸ hp
    · simp [firstIdxFrom, hp] at h
      exact ih (s + 1) k h

theorem firstIdx_some {p : Nat → Bool} {fuel k : Nat}
    (h : firstIdx p fuel = some k) : p k = true :=
  firstIdxFrom_some fuel 0 k h

theorem firstIdxFrom_none {p : Nat → Bool} (hp : ∀ n, p n = false) :
    ∀ fuel s, firstIdxFrom p s fuel = none := by
  intro fuel
  induction fuel with
  | zero => intro s; rfl
  | succ n ih => intro s; simp [firstIdxFrom, hp s, ih (s + 1)]

theorem pollsUpTo_succ (f : Nat → Bool) (k : Nat) :
    pollsUpTo f (k + 1) = pollsUpTo f k ++ [Event.pgrepPoll (f k)] := by
  simp [pollsUpTo, List.range_succ]

theorem probesUpTo_succ (n : NodeId) (f : Nat → Bool) (k : Nat) :
    probesUpTo n f (k + 1) = probesUpTo n f k ++ [Event.probe n (f k)] := by
  simp [probesUpTo, List.range_succ]

theorem cleanCmd_not_mem_polls (f : Nat → Bool) (m : Nat) :
    Event.cleanCmd ∉ pollsUpTo f m := by
  simp [pollsUpTo]

theorem rpc_not_mem_polls (f : Nat → Bool) (m : Nat) (n : NodeId) (c : RpcCall) :
    Event.rpc n c ∉ pollsUpTo f m := by
  simp [pollsUpTo]

theorem rpc_not_mem_probes (n2 : NodeId) (f : Nat → Bool) (m : Nat)
    (n : NodeId) (c : RpcCall) : Event.rpc n c ∉ probesUpTo n2 f m := by
  simp [probesUpTo]

theorem probe_two_not_mem_probes_one (f : Nat → Bool) (m : Nat) (b : Bool) :
    Event.probe NodeId.two b ∉ probesUpTo NodeId.one f m := by
  simp [probesUpTo]

theorem probe_two_not_mem_polls (f : Nat → Bool) (m : Nat) (b : Bool) :
    Event.probe NodeId.two b ∉ pollsUpTo f m := by
  simp [pollsUpTo]

theorem probe_mem_probesUpTo_succ (n : NodeId) (f : Nat → Bool) (k : Nat)
    (h : f k = true) : Event.probe n true ∈ probesUpTo n f (k + 1) := by
  rw [probesUpTo_succ, ← h]
  simp

/-! ## Lemmas about the straight-line tail under `set -e` -/

theorem runSteps_prefix (steps : List (Bool × Event)) :
    ∀ t, ∃ s, (runSteps steps t).1 = t ++ s := by
  induction steps with
  | nil => intro t; exact ⟨[], by simp [runSteps]⟩
  | cons pr rest ih =>
    intro t
    obtain ⟨ok, e⟩ := pr
    cases ok with
    | false => exact ⟨[e], by simp [runSteps]⟩
    | true =>
      obtain ⟨s, hs⟩ := ih (t ++ [e])
      exact ⟨e :: s, by simp [runSteps, hs]⟩

theorem runSteps_done0 (steps : List (Bool × Event)) :
    ∀ t, (runSteps steps t).2 = Status.done 0 →
      (runSteps steps t).1 = t ++ steps.map Prod.snd := by
  induction steps with
  | nil => intro t _; simp [runSteps]
  | cons pr rest ih =>
    intro t h
    obtain ⟨ok, e⟩ := pr
    cases ok with
    | false => simp [runSteps] at h
    | true =>
      simp only [runSteps] at h ⊢
      rw [ih (t ++ [e]) h]
      simp

theorem tailSteps_snd (env : Env) : (tailSteps env).map Prod.snd = demoEvents := rfl

/-! ## Structural lemmas about the phases -/

theorem readyPhase_prefix (env : Env) (fuel : Nat) (t : List Event) :
    ∃ s, (readyPhase env fuel t).1 = t ++ s := by
  unfold readyPhase
  cases h1 : firstIdx (env.readyAt NodeId.one) fuel with
  | none => exact ⟨probesUpTo NodeId.one (env.readyAt NodeId.one) fuel, rfl⟩
  | some k1 =>
    cases h2 : firstIdx (env.readyAt NodeId.two) fuel with
    | none =>
      exact ⟨probesUpTo NodeId.one (env.readyAt NodeId.one) (k1 + 1) ++
        probesUpTo NodeId.two (env.readyAt NodeId.two) fuel, by simp⟩
    | some k2 =>
      obtain ⟨s, hs⟩ := runSteps_prefix (tailSteps env)
        (t ++ probesUpTo NodeId.one (env.readyAt NodeId.one) (k1 + 1) ++
          probesUpTo NodeId.two (env.readyAt NodeId.two) (k2 + 1))
      exact ⟨probesUpTo NodeId.one (env.readyAt NodeId.one) (k1 + 1) ++
        (probesUpTo NodeId.two (env.readyAt NodeId.two) (k2 + 1) ++ s),
        by rw [hs]; simp⟩

theorem startPhase_prefix (env : Env) (fuel : Nat) (t : List Event) :
    ∃ s, (startPhase env fuel t).1 = t ++ Event.startCmd :: s := by
  cases hs : env.startOk with
  | false => exact ⟨[], by simp [startPhase, hs]⟩
  | true =>
    obtain ⟨s, h⟩ := readyPhase_prefix env fuel (t ++ [Event.startCmd])
    exact ⟨s, by simp [startPhase, hs, h]⟩

theorem cleanPhase_prefix (env : Env) (fuel : Nat) (t : List Event) :
    ∃ s, (cleanPhase env fuel t).1 = t ++ Event.cleanCmd :: s := by
  cases hc : env.cleanOk with
  | false => exact ⟨[], by simp [cleanPhase, hc]⟩
  | true =>
    obtain ⟨s, h⟩ := startPhase_prefix env fuel (t ++ [Event.cleanCmd])
    exact ⟨Event.startCmd :: s, by simp [cleanPhase, hc, h]⟩

theorem runBootstrap_fst (env : Env) (fuel : Nat) :
    (runBootstrap env fuel).1 = Event.stopCmd env.stopOk :: (runRest env fuel).1 := rfl

theorem runBootstrap_snd (env : Env) (fuel : Nat) :
    (runBootstrap env fuel).2 = (runRest env fuel).2 := rfl

theorem runRest_stopOk (env : Env) (fuel : Nat) (b : Bool) :
    runRest { env with stopOk := b } fuel = runRest env fuel := by
  cases env
  rfl

theorem foldl_stepRunning_demo (x : Bool) :
    List.foldl stepRunning x demoEvents = false := rfl

/-! ## Branch-structure lemmas about `runRest` -/

theorem runRest_clean_decomp (env : Env) (fuel : Nat)
    (h : Event.cleanCmd ∈ (runRest env fuel).1) :
    ∃ k p r, env.runningAt k = false ∧
      (runRest env fuel).1 = p ++ Event.pgrepPoll false :: Event.cleanCmd :: r := by
  unfold runRest at h ⊢
  cases hk : firstIdx (fun i => !env.runningAt i) fuel with
  | none =>
    simp only [hk] at h
    simp [pollsUpTo] at h
  | some k =>
    simp only [hk] at h ⊢
    have hrun : env.runningAt k = false := by
      have := firstIdx_some hk
      simpa using this
    obtain ⟨s, hs⟩ := cleanPhase_prefix env fuel (pollsUpTo env.runningAt (k + 1))
    refine ⟨k, pollsUpTo env.runningAt k, s, hrun, ?_⟩
    rw [hs, pollsUpTo_succ, hrun]
    simp

theorem runRest_rpc_decomp (env : Env) (fuel : Nat) (n : NodeId) (c : RpcCall)
    (h : Event.rpc n c ∈ (runRest env fuel).1) :
    ∃ p s, (runRest env fuel).1 = p ++ s ∧ Event.probe NodeId.one true ∈ p ∧
      Event.probe NodeId.two true ∈ p ∧ ∀ m d, Event.rpc m d ∉ p := by
  unfold runRest at h ⊢
  cases hk : firstIdx (fun i => !env.runningAt i) fuel with
  | none =>
    simp only [hk] at h
    simp [pollsUpTo] at h
  | some k =>
    simp only [hk] at h ⊢
    unfold cleanPhase at h ⊢
    cases hc : env.cleanOk with
    | false =>
      simp only [hc] at h
      simp [pollsUpTo] at h
    | true =>
      simp only [hc] at h ⊢
      unfold startPhase at h ⊢
      cases hst : env.startOk with
      | false =>
        simp only [hst] at h
        simp [pollsUpTo] at h
      | true =>
        simp only [hst] at h ⊢
        unfold readyPhase at h ⊢
        cases h1 : firstIdx (env.readyAt NodeId.one) fuel with
        | none =>
          simp only [h1] at h
          simp [pollsUpTo, probesUpTo] at h
        | some k1 =>
          simp only [h1] at h ⊢
          cases h2 : firstIdx (env.readyAt NodeId.two) fuel with
          | none =>
            simp only [h2] at h
            simp [pollsUpTo, probesUpTo] at h
          | some k2 =>
            simp only [h2] at h ⊢
            obtain ⟨s, hs⟩ := runSteps_prefix (tailSteps env)
              (pollsUpTo env.runningAt (k + 1) ++ [Event.cleanCmd] ++ [Event.startCmd] ++
                probesUpTo NodeId.one (env.readyAt NodeId.one) (k1 + 1) ++
                probesUpTo NodeId.two (env.readyAt NodeId.two) (k2 + 1))
            refine ⟨pollsUpTo env.runningAt (k + 1) ++ [Event.cleanCmd] ++ [Event.startCmd] ++
                probesUpTo NodeId.one (env.readyAt NodeId.one) (k1 + 1) ++
                probesUpTo NodeId.two (env.readyAt NodeId.two) (k2 + 1), s, ?_, ?_, ?_, ?_⟩
            · exact hs
            · have := probe_mem_probesUpTo_succ NodeId.one (env.readyAt NodeId.one) k1
                (firstIdx_some h1)
              simp [this]
            · have := probe_mem_probesUpTo_succ NodeId.two (env.readyAt NodeId.two) k2
                (firstIdx_some h2)
              simp [this]
            · intro m d hmem
              simp [pollsUpTo, probesUpTo] at hmem

theorem runRest_probeTwo_decomp (env : Env) (fuel : Nat) (b : Bool)
    (h : Event.probe NodeId.two b ∈ (runRest env fuel).1) :
    ∃ p s, (runRest env fuel).1 = p ++ s ∧ Event.probe NodeId.one true ∈ p ∧
      ∀ b2, Event.probe NodeId.two b2 ∉ p := by
  unfold runRest at h ⊢
  cases hk : firstIdx (fun i => !env.runningAt i) fuel with
  | none =>
    simp only [hk] at h
    simp [pollsUpTo] at h
  | some k =>
    simp only [hk] at h ⊢
    unfold cleanPhase at h ⊢
    cases hc : env.cleanOk with
    | false =>
      simp only [hc] at h
      simp [pollsUpTo] at h
    | true =>
      simp only [hc] at h ⊢
      unfold startPhase at h ⊢
      cases hst : env.startOk with
      | false =>
        simp only [hst] at h
        simp [pollsUpTo] at h
      | true =>
        simp only [hst] at h ⊢
        unfold readyPhase at h ⊢
        cases h1 : firstIdx (env.readyAt NodeId.one) fuel with
        | none =>
          simp only [h1] at h
          simp [pollsUpTo, probesUpTo] at h
        | some k1 =>
          simp only [h1] at h ⊢
          have hp1 : Event.probe NodeId.one true ∈
              pollsUpTo env.runningAt (k + 1) ++ [Event.cleanCmd] ++ [Event.startCmd] ++
                probesUpTo NodeId.one (env.readyAt NodeId.one) (k1 + 1) := by
            have := probe_mem_probesUpTo_succ NodeId.one (env.readyAt NodeId.one) k1
              (firstIdx_some h1)
            simp [this]
          have hnp : ∀ b2, Event.probe NodeId.two b2 ∉
              pollsUpTo env.runningAt (k + 1) ++ [Event.cleanCmd] ++ [Event.startCmd] ++
                probesUpTo NodeId.one (env.readyAt NodeId.one) (k1 + 1) := by
            intro b2 hmem
            simp [pollsUpTo, probesUpTo] at hmem
          cases h2 : firstIdx (env.readyAt NodeId.two) fuel with
          | none =>
            simp only [h2]
            refine ⟨pollsUpTo env.runningAt (k + 1) ++ [Event.cleanCmd] ++ [Event.startCmd] ++
                probesUpTo NodeId.one (env.readyAt NodeId.one) (k1 + 1),
              probesUpTo NodeId.two (env.readyAt NodeId.two) fuel, by simp, hp1, hnp⟩
          | some k2 =>
            simp only [h2]
            obtain ⟨s, hs⟩ := runSteps_prefix (tailSteps env)
              (pollsUpTo env.runningAt (k + 1) ++ [Event.cleanCmd] ++ [Event.startCmd] ++
                probesUpTo NodeId.one (env.readyAt NodeId.one) (k1 + 1) ++
                probesUpTo NodeId.two (env.readyAt NodeId.two) (k2 + 1))
            refine ⟨pollsUpTo env.runningAt (k + 1) ++ [Event.cleanCmd] ++ [Event.startCmd] ++
                probesUpTo NodeId.one (env.readyAt NodeId.one) (k1 + 1),
              probesUpTo NodeId.two (env.readyAt NodeId.two) (k2 + 1) ++ s,
              by rw [hs]; simp, hp1, hnp⟩

theorem runRest_neverReady (env : Env) (fuel : Nat)
    (hr : ∀ i, env.readyAt NodeId.one i = false) :
    (∀ n c, Event.rpc n c ∉ (runRest env fuel).1) ∧
      (runRest env fuel).2 ≠ Status.done 0 := by
  unfold runRest
  cases hk : firstIdx (fun i => !env.runningAt i) fuel with
  | none =>
    constructor
    · intro n c hmem
      simp [pollsUpTo] at hmem
    · simp
  | some k =>
    unfold cleanPhase
    cases hc : env.cleanOk with
    | false =>
      constructor
      · intro n c hmem
        simp [pollsUpTo] at hmem
      · simp
    | true =>
      unfold startPhase
      cases hst : env.startOk with
      | false =>
        constructor
        · intro n c hmem
          simp [pollsUpTo] at hmem
        · simp
      | true =>
        unfold readyPhase
        have h1 : firstIdx (env.readyAt NodeId.one) fuel = none :=
          firstIdxFrom_none hr fuel 0
        simp only [h1]
        constructor
        · intro n c hmem
          simp [pollsUpTo, probesUpTo] at hmem
        · simp

theorem runRest_wallet1_fail (env : Env) (fuel : Nat)
    (hw : env.walletOk NodeId.one = false) :
    (runRest env fuel).2 ≠ Status.done 0 ∧
      Event.rpc NodeId.two RpcCall.createWallet ∉ (runRest env fuel).1 := by
  unfold runRest
  cases hk : firstIdx (fun i => !env.runningAt i) fuel with
  | none =>
    constructor
    · simp
    · intro hmem
      simp [pollsUpTo] at hmem
  | some k =>
    unfold cleanPhase
    cases hc : env.cleanOk with
    | false =>
      constructor
      · simp
      · intro hmem
        simp [pollsUpTo] at hmem
    | true =>
      unfold startPhase
      cases hst : env.startOk with
      | false =>
        constructor
        · simp
        · intro hmem
          simp [pollsUpTo] at hmem
      | true =>
        unfold readyPhase
        cases h1 : firstIdx (env.readyAt NodeId.one) fuel with
        | none =>
          constructor
          · simp
          · intro hmem
            simp [pollsUpTo, probesUpTo] at hmem
        | some k1 =>
          cases h2 : firstIdx (env.readyAt NodeId.two) fuel with
          | none =>
            constructor
            · simp
            · intro hmem
              simp [pollsUpTo, probesUpTo] at hmem
          | some k2 =>
            have hts : tailSteps env =
                (false, Event.rpc NodeId.one RpcCall.createWallet) ::
                  (tailSteps env).tail := by
              simp [tailSteps, hw]
            rw [hts]
            constructor
            · simp [runSteps]
            · intro hmem
              simp [runSteps, pollsUpTo, probesUpTo] at hmem

theorem runRest_done0_shape (env : Env) (fuel : Nat)
    (h : (runRest env fuel).2 = Status.done 0) :
    ∃ k k1 k2,
      firstIdx (fun i => !env.runningAt i) fuel = some k ∧
      firstIdx (env.readyAt NodeId.one) fuel = some k1 ∧
      firstIdx (env.readyAt NodeId.two) fuel = some k2 ∧
      (runRest env fuel).1 =
        (pollsUpTo env.runningAt (k + 1) ++ [Event.cleanCmd] ++ [Event.startCmd] ++
          probesUpTo NodeId.one (env.readyAt NodeId.one) (k1 + 1) ++
          probesUpTo NodeId.two (env.readyAt NodeId.two) (k2 + 1)) ++ demoEvents := by
  unfold runRest at h ⊢
  cases hk : firstIdx (fun i => !env.runningAt i) fuel with
  | none => simp only [hk] at h; simp at h
  | some k =>
    simp only [hk] at h ⊢
    unfold cleanPhase at h ⊢
    cases hc : env.cleanOk with
    | false => simp only [hc] at h; simp at h
    | true =>
      simp only [hc] at h ⊢
      unfold startPhase at h ⊢
      cases hst : env.startOk with
      | false => simp only [hst] at h; simp at h
      | true =>
        simp only [hst] at h ⊢
        unfold readyPhase at h ⊢
        cases h1 : firstIdx (env.readyAt NodeId.one) fuel with
        | none => simp only [h1] at h; simp at h
        | some k1 =>
          simp only [h1] at h ⊢
          cases h2 : firstIdx (env.readyAt NodeId.two) fuel with
          | none => simp only [h2] at h; simp at h
          | some k2 =>
            simp only [h2] at h ⊢
            refine ⟨k, k1, k2, rfl, rfl, rfl, ?_⟩
            rw [runSteps_done0 _ _ h, tailSteps_snd]

/-! ## The claims -/

/-- C1: in every execution of the bootstrap sequence, the data-directory
cleaning step runs only once the `pgrep` wait loop has observed that no
bitcoind process remains: whenever `cleanCmd` occurs in the trace, it is
immediately preceded by a `pgrepPoll false` observation (some poll `k`
reported the processes gone), so cleaning never happens while the
process-liveness check reports running. -/
theorem clean_only_after_no_process (env : Env) (fuel : Nat)
    (h : Event.cleanCmd ∈ (runBootstrap env fuel).1) :
    ∃ k p r, env.runningAt k = false ∧
      (runBootstrap env fuel).1 = p ++ Event.pgrepPoll false :: Event.cleanCmd :: r := by
  rw [runBootstrap_fst] at h ⊢
  have h0 : Event.cleanCmd ∈ (runRest env fuel).1 := by
    simp at h
    exact h
  obtain ⟨k, p, r, hrun, hsh⟩ := runRest_clean_decomp env fuel h0
  exact ⟨k, Event.stopCmd env.stopOk :: p, r, hrun, by rw [hsh]; simp⟩

/-- C1 witness: in the all-successful environment the cleaning step does
occur, and the theorem produces the decomposition. -/
theorem clean_only_after_no_process_witness :
    Event.cleanCmd ∈ (runBootstrap allOkEnv 4).1 ∧
      ∃ k p r, allOkEnv.runningAt k = false ∧
        (runBootstrap allOkEnv 4).1 = p ++ Event.pgrepPoll false :: Event.cleanCmd :: r :=
  ⟨by decide, clean_only_after_no_process allOkEnv 4 (by decide)⟩

/-- C2: no RPC call against a node is issued before that node's RPC
server has answered a successful `getnetworkinfo` probe since the last
start: every `rpc` event in every trace lies in a suffix that is preceded
by a prefix containing a successful readiness probe of both nodes and no
`rpc` event at all; in particular wallet creation never begins before
both readiness checks have succeeded. -/
theorem rpc_only_after_both_ready (env : Env) (fuel : Nat) (n : NodeId) (c : RpcCall)
    (h : Event.rpc n c ∈ (runBootstrap env fuel).1) :
    ∃ p s, (runBootstrap env fuel).1 = p ++ s ∧ Event.probe NodeId.one true ∈ p ∧
      Event.probe NodeId.two true ∈ p ∧ ∀ m d, Event.rpc m d ∉ p := by
  rw [runBootstrap_fst] at h ⊢
  have h0 : Event.rpc n c ∈ (runRest env fuel).1 := by
    simp at h
    exact h
  obtain ⟨p, s, hsh, h1, h2, h3⟩ := runRest_rpc_decomp env fuel n c h0
  refine ⟨Event.stopCmd env.stopOk :: p, s, by rw [hsh]; simp, by simp [h1], by simp [h2], ?_⟩
  intro m d hmem
  simp at hmem
  exact h3 m d hmem

/-- C2 witness: the wallet-creation RPC occurs in the all-successful run,
and the theorem places both successful probes before it. -/
theorem rpc_only_after_both_ready_witness :
    Event.rpc NodeId.one RpcCall.createWallet ∈ (runBootstrap allOkEnv 4).1 ∧
      ∃ p s, (runBootstrap allOkEnv 4).1 = p ++ s ∧ Event.probe NodeId.one true ∈ p ∧
        Event.probe NodeId.two true ∈ p ∧ ∀ m d, Event.rpc m d ∉ p :=
  ⟨by decide, rpc_only_after_both_ready allOkEnv 4 NodeId.one RpcCall.createWallet (by decide)⟩

/-- C3 counterexample: the waits have no deadline.  In an environment
where the old bitcoind processes never exit, the bootstrap never
terminates — no amount of fuel makes it finish, with any exit status —
so it does not stop "within a configured deadline" and no
`NodeNotReadyError`-style failure is ever produced. -/
theorem waits_have_no_deadline : ¬ bootstrapTerminates hangEnv := by
  rintro ⟨fuel, h⟩
  have hn : firstIdx (fun i => !hangEnv.runningAt i) fuel = none :=
    firstIdxFrom_none (fun _ => rfl) fuel 0
  rw [runBootstrap_snd] at h
  unfold runRest at h
  simp only [hn] at h
  simp [isDone] at h

/-- C3 amended: the bootstrap's waits are unbounded polling loops with no
deadline and no timeout error; what does hold is that a wait that never
succeeds blocks the run forever and the dependent steps are never
reached — if node 1 never answers a readiness probe, no RPC step is ever
issued and the run never finishes successfully, for any amount of fuel. -/
theorem never_ready_blocks_forever (env : Env) (fuel : Nat)
    (hr : ∀ i, env.readyAt NodeId.one i = false) :
    (∀ n c, Event.rpc n c ∉ (runBootstrap env fuel).1) ∧
      (runBootstrap env fuel).2 ≠ Status.done 0 := by
  obtain ⟨hm, hst⟩ := runRest_neverReady env fuel hr
  refine ⟨?_, by rw [runBootstrap_snd]; exact hst⟩
  intro n c hmem
  rw [runBootstrap_fst] at hmem
  simp at hmem
  exact hm n c hmem

/-- C3 witness: the amended theorem applied to the environment in which
node 1 never becomes ready. -/
theorem never_ready_blocks_forever_witness :
    (∀ n c, Event.rpc n c ∉ (runBootstrap neverReadyEnv 3).1) ∧
      (runBootstrap neverReadyEnv 3).2 ≠ Status.done 0 :=
  never_ready_blocks_forever neverReadyEnv 3 (fun _ => rfl)

/-- C4 counterexample: the bootstrap does not execute *exactly* the
claimed step list ending in the info/balance snapshot: a fully
successful run additionally issues a `sendtoaddress` transfer, a second
block-generation step (1 confirmation block) after the snapshot, and a
final stop of both nodes. -/
theorem bootstrap_has_steps_beyond_snapshot :
    (runBootstrap allOkEnv 4).2 = Status.done 0 ∧
    Event.rpc NodeId.one RpcCall.sendToAddress ∈ (runBootstrap allOkEnv 4).1 ∧
    Event.rpc NodeId.one (RpcCall.generateBlocks 1) ∈ (runBootstrap allOkEnv 4).1 ∧
    Event.stopFinal ∈ (runBootstrap allOkEnv 4).1 := by decide

/-- C4 amended: every fully successful bootstrap run executes, in strict
order and with each step gated on all previous steps succeeding
(`set -e` plus the loop structure): absorbed stop, process-exit wait,
clean, start, node 1's readiness wait, node 2's readiness wait, then the
straight-line tail `demoEvents` — wallet1, wallet2, mine 101 blocks on
node 1, info snapshot, followed by the demo transfer (address for node 2,
send, 1 confirmation block, both balances) and a final stop. -/
theorem bootstrap_success_trace (env : Env) (fuel : Nat)
    (h : (runBootstrap env fuel).2 = Status.done 0) :
    ∃ k k1 k2,
      firstIdx (fun i => !env.runningAt i) fuel = some k ∧
      firstIdx (env.readyAt NodeId.one) fuel = some k1 ∧
      firstIdx (env.readyAt NodeId.two) fuel = some k2 ∧
      (runBootstrap env fuel).1 =
        (Event.stopCmd env.stopOk ::
          (pollsUpTo env.runningAt (k + 1) ++ [Event.cleanCmd] ++ [Event.startCmd] ++
            probesUpTo NodeId.one (env.readyAt NodeId.one) (k1 + 1) ++
            probesUpTo NodeId.two (env.readyAt NodeId.two) (k2 + 1))) ++ demoEvents := by
  rw [runBootstrap_snd] at h
  obtain ⟨k, k1, k2, e1, e2, e3, hsh⟩ := runRest_done0_shape env fuel h
  exact ⟨k, k1, k2, e1, e2, e3, by rw [runBootstrap_fst, hsh]; simp⟩

/-- C4 witness: the successful run in the all-successful environment has
exactly this trace shape. -/
theorem bootstrap_success_trace_witness :
    (runBootstrap allOkEnv 4).2 = Status.done 0 ∧
      ∃ k k1 k2,
        firstIdx (fun i => !allOkEnv.runningAt i) 4 = some k ∧
        firstIdx (allOkEnv.readyAt NodeId.one) 4 = some k1 ∧
        firstIdx (allOkEnv.readyAt NodeId.two) 4 = some k2 ∧
        (runBootstrap allOkEnv 4).1 =
          (Event.stopCmd allOkEnv.stopOk ::
            (pollsUpTo allOkEnv.runningAt (k + 1) ++ [Event.cleanCmd] ++ [Event.startCmd] ++
              probesUpTo NodeId.one (allOkEnv.readyAt NodeId.one) (k1 + 1) ++
              probesUpTo NodeId.two (allOkEnv.readyAt NodeId.two) (k2 + 1))) ++ demoEvents :=
  ⟨by decide, bootstrap_success_trace allOkEnv 4 (by decide)⟩

/-- C5 counterexample: wallet creation is not idempotent-tolerant.  In an
environment where `createwallet wallet1` fails (as it does when the
wallet already exists — `bitcoin-cli` exits non-zero), `set -e` aborts
the bootstrap with exit code 1: wallet2 is never created and no block is
mined, instead of the failure being treated as success. -/
theorem wallet_exists_aborts :
    (runBootstrap walletExistsEnv 4).2 = Status.done 1 ∧
    Event.rpc NodeId.one RpcCall.createWallet ∈ (runBootstrap walletExistsEnv 4).1 ∧
    Event.rpc NodeId.two RpcCall.createWallet ∉ (runBootstrap walletExistsEnv 4).1 ∧
    Event.rpc NodeId.one (RpcCall.generateBlocks 101) ∉ (runBootstrap walletExistsEnv 4).1 := by
  decide

/-- C5 amended: under `set -e`, any failure of `createwallet wallet1`
(including the wallet-already-exists error) aborts the bootstrap: the run
never finishes successfully and the second wallet-creation step is never
reached; no error at this step is recovered automatically. -/
theorem wallet1_failure_aborts (env : Env) (fuel : Nat)
    (hw : env.walletOk NodeId.one = false) :
    (runBootstrap env fuel).2 ≠ Status.done 0 ∧
      Event.rpc NodeId.two RpcCall.createWallet ∉ (runBootstrap env fuel).1 := by
  obtain ⟨hst, hm⟩ := runRest_wallet1_fail env fuel hw
  refine ⟨by rw [runBootstrap_snd]; exact hst, ?_⟩
  rw [runBootstrap_fst]
  intro hmem
  simp at hmem
  exact hm hmem

/-- C5 witness: the amended theorem applied to the environment in which
`createwallet wallet1` fails. -/
theorem wallet1_failure_aborts_witness :
    (runBootstrap walletExistsEnv 4).2 ≠ Status.done 0 ∧
      Event.rpc NodeId.two RpcCall.createWallet ∉ (runBootstrap walletExistsEnv 4).1 :=
  wallet1_failure_aborts walletExistsEnv 4 rfl

/-- C6 counterexample: a fully successful bootstrap run does not end in
an Idle/Ready state with two node processes running — its very last
action is `make stop`, so after the run the process-liveness projection
is false (whatever the liveness before the run was). -/
theorem bootstrap_ends_with_stop :
    (runBootstrap allOkEnv 4).2 = Status.done 0 ∧
    runningAfter true (runBootstrap allOkEnv 4).1 = false ∧
    runningAfter false (runBootstrap allOkEnv 4).1 = false ∧
    (runBootstrap allOkEnv 4).1.getLast? = some Event.stopFinal := by decide

/-- C6 amended: re-invoking the bootstrap from any prior process state
(`b`) converges to the same final state, but that state is Stopped, not
Idle/Ready: every successful run creates both wallets during the run,
exits with code 0 (`Status.done 0`), and leaves no node process running
because its final step stops both nodes; a failed run exits non-zero or
keeps waiting. -/
theorem bootstrap_idempotent_ends_stopped (env : Env) (fuel : Nat) (b : Bool)
    (h : (runBootstrap env fuel).2 = Status.done 0) :
    runningAfter b (runBootstrap env fuel).1 = false ∧
      Event.rpc NodeId.one RpcCall.createWallet ∈ (runBootstrap env fuel).1 ∧
      Event.rpc NodeId.two RpcCall.createWallet ∈ (runBootstrap env fuel).1 := by
  rw [runBootstrap_snd] at h
  obtain ⟨k, k1, k2, _, _, _, hsh⟩ := runRest_done0_shape env fuel h
  rw [runBootstrap_fst, hsh]
  refine ⟨?_, by simp [demoEvents], by simp [demoEvents]⟩
  simp only [runningAfter, List.foldl_cons, List.foldl_append, foldl_stepRunning_demo]

/-- C6 witness: the amended theorem applied to the all-successful
environment, starting from a running prior state. -/
theorem bootstrap_idempotent_ends_stopped_witness :
    runningAfter true (runBootstrap allOkEnv 4).1 = false ∧
      Event.rpc NodeId.one RpcCall.createWallet ∈ (runBootstrap allOkEnv 4).1 ∧
      Event.rpc NodeId.two RpcCall.createWallet ∈ (runBootstrap allOkEnv 4).1 :=
  bootstrap_idempotent_ends_stopped allOkEnv 4 true (by decide)

/-- C7: the bootstrap's stop phase is a no-op success on an
already-stopped network: the outcome of the absorbed `make stop || true`
changes neither the exit status nor any event after the stop command
itself, and control passes beyond the stop phase (to cleaning) only once
a `pgrep` poll has reported that no node process remains. -/
theorem stop_absorbed_and_waited (env : Env) (fuel : Nat) (b b' : Bool) :
    (runBootstrap { env with stopOk := b } fuel).2 =
      (runBootstrap { env with stopOk := b' } fuel).2 ∧
    ((runBootstrap { env with stopOk := b } fuel).1).tail =
      ((runBootstrap { env with stopOk := b' } fuel).1).tail ∧
    (Event.cleanCmd ∈ (runBootstrap env fuel).1 →
      ∃ k p r, env.runningAt k = false ∧
        (runBootstrap env fuel).1 = p ++ Event.pgrepPoll false :: Event.cleanCmd :: r) := by
  refine ⟨?_, ?_, ?_⟩
  · rw [runBootstrap_snd, runBootstrap_snd, runRest_stopOk env fuel b,
      runRest_stopOk env fuel b']
  · rw [runBootstrap_fst, runBootstrap_fst, runRest_stopOk env fuel b,
      runRest_stopOk env fuel b']
    rfl
  · intro h
    rw [runBootstrap_fst] at h ⊢
    have h0 : Event.cleanCmd ∈ (runRest env fuel).1 := by
      simp at h
      exact h
    obtain ⟨k, p, r, hrun, hsh⟩ := runRest_clean_decomp env fuel h0
    exact ⟨k, Event.stopCmd env.stopOk :: p, r, hrun, by rw [hsh]; simp⟩

/-- C7 witness: with a failing and a succeeding absorbed stop, the run's
status agrees, and in the all-successful run the stop phase completed
only after a failed `pgrep` poll. -/
theorem stop_absorbed_and_waited_witness :
    (runBootstrap { allOkEnv with stopOk := false } 4).2 =
      (runBootstrap { allOkEnv with stopOk := true } 4).2 ∧
    (∃ k p r, allOkEnv.runningAt k = false ∧
      (runBootstrap allOkEnv 4).1 = p ++ Event.pgrepPoll false :: Event.cleanCmd :: r) :=
  ⟨(stop_absorbed_and_waited allOkEnv 4 false true).1,
   (stop_absorbed_and_waited allOkEnv 4 false true).2.2 (by decide)⟩

/-- C8 counterexample: the readiness waits are not parallel or
independently deadline-bounded.  In an environment where node 1 never
becomes ready while node 2 is ready from its first probe, the run blocks
forever inside node 1's loop and node 2 is never probed at all: node 2's
wait is blocked on node 1's wait completing. -/
theorem node2_wait_blocked_on_node1 :
    (runBootstrap node1NeverReadyEnv 4).2 = Status.waiting WaitPoint.ready1 ∧
    node1NeverReadyEnv.readyAt NodeId.two 0 = true ∧
    Event.probe NodeId.two true ∉ (runBootstrap node1NeverReadyEnv 4).1 ∧
    Event.probe NodeId.two false ∉ (runBootstrap node1NeverReadyEnv 4).1 := by decide

/-- C8 amended: the two readiness waits are strictly sequential, not
parallel: any probe of node 2 occurs only in a suffix whose preceding
prefix already contains node 1's successful probe and no probe of node 2
at all — node 2's wait begins only after node 1's wait has succeeded —
and neither wait has a deadline of its own. -/
theorem node2_probes_after_node1_ready (env : Env) (fuel : Nat) (b : Bool)
    (h : Event.probe NodeId.two b ∈ (runBootstrap env fuel).1) :
    ∃ p s, (runBootstrap env fuel).1 = p ++ s ∧ Event.probe NodeId.one true ∈ p ∧
      ∀ b2, Event.probe NodeId.two b2 ∉ p := by
  rw [runBootstrap_fst] at h ⊢
  have h0 : Event.probe NodeId.two b ∈ (runRest env fuel).1 := by
    simp at h
    exact h
  obtain ⟨p, s, hsh, h1, h2⟩ := runRest_probeTwo_decomp env fuel b h0
  refine ⟨Event.stopCmd env.stopOk :: p, s, by rw [hsh]; simp, by simp [h1], ?_⟩
  intro b2 hmem
  simp at hmem
  exact h2 b2 hmem

/-- C8 witness: in the all-successful run node 2 is probed, and the
theorem places node 1's successful probe strictly before all of node 2's
probes. -/
theorem node2_probes_after_node1_ready_witness :
    Event.probe NodeId.two true ∈ (runBootstrap allOkEnv 4).1 ∧
      ∃ p s, (runBootstrap allOkEnv 4).1 = p ++ s ∧ Event.probe NodeId.one true ∈ p ∧
        ∀ b2, Event.probe NodeId.two b2 ∉ p :=
  ⟨by decide, node2_probes_after_node1_ready allOkEnv 4 true (by decide)⟩

/-! ## The front-end claims -/

theorem take_append_take (A B : List String) (n : Nat) :
    (A ++ B.take n).take n = (A ++ B).take n := by
  rw [List.take_append_eq_append_take, List.take_append_eq_append_take, List.take_take,
    Nat.min_eq_left (Nat.sub_le n A.length)]

theorem foldLogs_eq (msgs : List String) :
    ∀ init : List String, init.length ≤ 50 →
      foldLogs init msgs = (msgs.reverse ++ init).take 50 := by
  induction msgs with
  | nil =>
    intro init h
    simp [foldLogs, List.take_of_length_le h]
  | cons m ms ih =>
    intro init h
    have h1 : (logStep m init).length ≤ 50 := List.length_take_le ..
    have h2 : foldLogs init (m :: ms) = foldLogs (logStep m init) ms := rfl
    rw [h2, ih _ h1, logStep, take_append_take]
    simp

/-- C9: the front-end log is a bounded list: after any sequence of `log`
calls starting from the initial empty state, the `logs` list holds at
most 50 entries, equals the reversal of the calls truncated to the 50
most recent (so older entries are discarded), and its head is always the
most recently logged message. -/
theorem log_bounded_most_recent_first (msgs : List String) :
    (foldLogs [] msgs).length ≤ 50 ∧
    foldLogs [] msgs = msgs.reverse.take 50 ∧
    ∀ m, (foldLogs [] (msgs ++ [m])).head? = some m := by
  have hmain : foldLogs [] msgs = msgs.reverse.take 50 := by
    rw [foldLogs_eq msgs [] (by simp)]
    simp
  refine ⟨by rw [hmain]; exact List.length_take_le .., hmain, ?_⟩
  intro m
  rw [foldLogs_eq (msgs ++ [m]) [] (by simp)]
  simp

/-- C10: the `send` handler issues no HTTP request when the target
address is empty: it only prepends the no-address error to the log and
returns, leaving `amount`, `targetAddress`, `genBlocks` and `info`
unchanged and requesting no endpoint at all (in particular not
`/send`). -/
theorem send_empty_address_no_request (fr : FetchResult) (infoResp : Option String)
    (s : AppState) (h : s.targetAddress = "") :
    (sendOp fr infoResp s).2 = [] ∧
    (sendOp fr infoResp s).1.logs = logStep noAddressMsg s.logs ∧
    (sendOp fr infoResp s).1.amount = s.amount ∧
    (sendOp fr infoResp s).1.targetAddress = s.targetAddress ∧
    (sendOp fr infoResp s).1.genBlocks = s.genBlocks ∧
    (sendOp fr infoResp s).1.info = s.info := by
  unfold sendOp
  rw [if_pos h]
  exact ⟨rfl, rfl, rfl, rfl, rfl, rfl⟩

/-- C10 witness: the theorem applied to the initial component state,
whose target address is empty. -/
theorem send_empty_address_no_request_witness :
    (sendOp (FetchResult.resp none "resp") none emptyAddrState).2 = [] ∧
    (sendOp (FetchResult.resp none "resp") none emptyAddrState).1.logs =
      logStep noAddressMsg emptyAddrState.logs ∧
    (sendOp (FetchResult.resp none "resp") none emptyAddrState).1.amount =
      emptyAddrState.amount ∧
    (sendOp (FetchResult.resp none "resp") none emptyAddrState).1.targetAddress =
      emptyAddrState.targetAddress ∧
    (sendOp (FetchResult.resp none "resp") none emptyAddrState).1.genBlocks =
      emptyAddrState.genBlocks ∧
    (sendOp (FetchResult.resp none "resp") none emptyAddrState).1.info =
      emptyAddrState.info :=
  send_empty_address_no_request (FetchResult.resp none "resp") none emptyAddrState rfl

end TestnetBox
